import Mathlib

/-
Verification of the Kanalyxer reconciliation pipeline (kanalyxer/analyxer.py,
kanalyxer/propinfo.py, kanalyxer/metamgr.py).

Shallow embedding conventions:
- Python strings are lists of characters (`Str`); `upperStr` models `str.upper`
  and `splitDot` models `str.split(".")` (including the empty-string edge cases).
- `pyExt` models `pathlib.Path.suffix[1:]`: the extension after the last dot,
  empty when the last dot is leading or trailing or absent (the cpython rule
  `0 < name.rfind(".") < len(name) - 1`).
- Paths (`KPath`) are component lists stored innermost-first, so `pathName`
  is the head, `pathParent` drops it and `pathJoin` pushes a new component.
- `datetime.datetime` values are `KDateTime`: a year plus a second offset;
  ordering and subtraction go through `toSecs` (a fixed-length-year calendar,
  adequate because the pipeline only compares dates and reads their year).
- The external collaborators (kjmarotools conventions codec, proprietdin,
  filetools, ostools, and the pilexif/exiftool metadata backends) are the
  fields of `Env`; the functions of this repository are defined over `Env`.
- Python `assert` failures are modelled by `Option`: `none` is the raised
  `AssertionError`, `some` the normal return.
- Filesystem side effects of a pass are recorded as an `FsEvent` trace in the
  order the statements execute.
-/

namespace Kanalyxer

/-- Python strings, modelled as lists of characters. -/
abbrev Str := List Char

/-- Model of `str.upper()` (ASCII uppercase, as used by the skip lists). -/
def upperStr (s : Str) : Str := s.map Char.toUpper

/-- Model of `str.split(".")`: `"".split(".") == [""]`, `".pdf".split(".") ==
["", "pdf"]`, `"a.b".split(".") == ["a", "b"]`. -/
def splitDot : Str → List Str
  | [] => [[]]
  | c :: rest =>
    if c = '.' then [] :: splitDot rest
    else
      match splitDot rest with
      | [] => [[c]]
      | h :: t => (c :: h) :: t

/-- Model of `pathlib.PurePath.suffix[1:]` applied to a file name: the part of
the name after the last dot, provided that dot is neither the leading nor the
trailing character (cpython: `i = name.rfind(".")`; suffix nonempty iff
`0 < i < len(name) - 1`). -/
def pyExt (s : Str) : Str :=
  match s.reverse.findIdx? (fun c => c == '.') with
  | none => []
  | some j =>
    let i := s.length - 1 - j
    if 0 < i ∧ i < s.length - 1 then s.drop (i + 1) else []

/-- Absolute paths: component lists, innermost component first. -/
abbrev KPath := List Str

/-- Model of `Path.name`. -/
def pathName (p : KPath) : Str := p.headD []

/-- Model of `Path.parent`. -/
def pathParent (p : KPath) : KPath := p.tail

/-- Model of `Path.joinpath(s)`. -/
def pathJoin (p : KPath) (s : Str) : KPath := s :: p

/-- Model of `datetime.datetime`: the year plus a second offset locating the
instant within the (fixed-length) year. -/
structure KDateTime where
  year : Int
  ofs : Int
deriving DecidableEq

/-- Seconds-since-epoch view of a `KDateTime` (366-day years; only ordering
and differences of dates matter to the pipeline). -/
def KDateTime.toSecs (d : KDateTime) : Int := d.year * 31622400 + d.ofs

/-- Model of `(a - b).total_seconds()`. -/
def diffSeconds (a b : KDateTime) : Int := a.toSecs - b.toSecs

/-- Model of `a <= b` on datetimes. -/
def KDateTime.leb (a b : KDateTime) : Bool := decide (a.toSecs ≤ b.toSecs)

/-- Model of `str(datetime)`: some injective rendering. -/
def KDateTime.str (d : KDateTime) : Str :=
  (toString d.year).toList ++ '-' :: (toString d.ofs).toList

/-- The sentinel `datetime.datetime(1, 1, 1)` used as the class-level default
of `FileInfo._metadata_original_date` (propinfo.py line 37). -/
def sentinelDate : KDateTime := ⟨1, 0⟩

/-- propinfo.FileInfo: one classification record per scanned file. -/
structure FileInfo where
  kdin : Bool
  ekdin : Bool
  prpdin : Bool
  metadte : Bool
  readable : Bool
  editable : Bool
  abs_path : KPath
  metadata_original_date : KDateTime := sentinelDate
deriving DecidableEq

/-- propinfo.FileInfo.set_metadate_original: `assert self.metadte` then store;
`none` models the AssertionError raised when `metadte` is false. -/
def set_metadate_original (f : FileInfo) (d : KDateTime) : Option FileInfo :=
  if f.metadte then some { f with metadata_original_date := d } else none

/-- propinfo.FileInfo.get_metadate_original: `assert self.metadte` then read;
`none` models the AssertionError raised when `metadte` is false. -/
def get_metadate_original (f : FileInfo) : Option KDateTime :=
  if f.metadte then some f.metadata_original_date else none

/-- The external collaborators consumed by the pipeline, as documented in the
spec (metadata gateway backends, date-convention codec, filesystem helpers).
Each field is one external function, specialised to the run's year bounds. -/
structure Env where
  readable_extensions : List Str
  editable_extensions : List Str
  has_date_original : KPath → Bool
  date_original : KPath → KDateTime
  is_file_kdin : KPath → Bool
  is_file_ekdin : KPath → Bool
  is_proprietary_din : KPath → Bool
  get_file_kdin : KPath → KDateTime
  get_file_ekdin : KPath → KDateTime
  is_folder_kdin : KPath → Bool
  folder_kdin_bounds : KPath → KDateTime × KDateTime
  get_file_modify_date : KPath → KDateTime
  file_clean2trkdin : KPath → KDateTime → KPath
  file_ekdin2clean : KPath → KPath
  file_ekdin2kdin : KPath → KPath
  itername : KPath → KPath
  kdin_target : KPath → KPath
  target_exists : KPath → Bool

/-- Analyxer.SKIP_EXTENSIONS (analyxer.py lines 34-36). -/
def SKIP_EXTENSIONS : List Str :=
  ["DMG".toList, "XSL".toList, "XML".toList, "TXT".toList, "DOC".toList,
   "DOCX".toList, "PPT".toList, "DB".toList, "LNK".toList, "GIF".toList,
   "BUP".toList, "IFO".toList, "VOB".toList, "MP3".toList, "ODT".toList,
   "RAR".toList, "PDF".toList, "RTF".toList, "DS_STORE".toList]

/-- Analyxer.TO_REVIEW_PATH (analyxer.py line 33). -/
def TO_REVIEW_PATH : Str := "Files to review".toList

/-- metamgr.MetaManager.has_valid_date_original: a date field exists and its
year is within the configured year bounds (metamgr.py lines 105-120), for the
file loaded (here passed explicitly). -/
def has_valid_date_original (env : Env) (yb : Int × Int) (p : KPath) : Bool :=
  if env.has_date_original p then
    decide (yb.1 ≤ (env.date_original p).year ∧ (env.date_original p).year ≤ yb.2)
  else false

/-- metamgr.MetaManager.file_has_damaged_date: a date field exists and its
year equals the sentinel year 1 (metamgr.py lines 51-63). -/
def file_has_damaged_date (env : Env) (p : KPath) : Bool :=
  env.has_date_original p && decide ((env.date_original p).year = 1)

/-- metamgr.MetaManager.get_file_damaged_date: string rendering of the
(possibly damaged) stored date (metamgr.py lines 65-75). -/
def get_file_damaged_date (env : Env) (p : KPath) : Str :=
  (env.date_original p).str

/-- Model of the external `kjmarotools.proprietdin.rename_proprietary_din_file`
per its documented contract (spec 4.2 and 7): rename the file to the canonical
KDIN target unless that target already exists on disk, in which case the
original path is returned unchanged. -/
def rename_proprietary_din_file (env : Env) (p : KPath) : KPath :=
  if env.target_exists (env.kdin_target p) then p else env.kdin_target p

/-- propinfo.update_proprietary_din (propinfo.py lines 50-63). -/
def update_proprietary_din (env : Env) (fileinfo : FileInfo) : FileInfo :=
  let new_path := rename_proprietary_din_file env fileinfo.abs_path
  if pathName new_path ≠ pathName fileinfo.abs_path then
    { fileinfo with abs_path := new_path, prpdin := false, kdin := true }
  else fileinfo

/-- Body of the scan loop of Analyxer.load_files2analyse (analyxer.py lines
71-96): `none` when the file is skipped by extension, otherwise the
FileRecord built for it. -/
def scanFile (env : Env) (yb : Int × Int) (file : KPath) : Option FileInfo :=
  if SKIP_EXTENSIONS.contains ((splitDot (upperStr (pathName file))).getLastD []) then
    none
  else if SKIP_EXTENSIONS.contains (upperStr (pyExt (pathName file))) then
    none
  else
    let suffix := upperStr (pyExt (pathName file))
    let valid_mtadate :=
      if env.readable_extensions.contains suffix then
        has_valid_date_original env yb file
      else false
    let finfo : FileInfo :=
      { kdin := env.is_file_kdin file
        ekdin := env.is_file_ekdin file
        prpdin := env.is_proprietary_din file
        metadte := valid_mtadate
        readable := env.readable_extensions.contains suffix
        editable := env.editable_extensions.contains suffix
        abs_path := file }
    some (if valid_mtadate then
            (set_metadate_original finfo (env.date_original file)).getD finfo
          else finfo)

/-- Analyxer.load_files2analyse (analyxer.py lines 59-98): one record per
non-skipped file, in traversal order. -/
def load_files2analyse (env : Env) (yb : Int × Int) (files_in_path : List KPath) :
    List FileInfo :=
  files_in_path.filterMap (scanFile env yb)

/-- A filesystem mutation performed by a pass, in statement order:
`os.makedirs`, `shutil.copy2`, the metadata date write, the metadata save,
and `os.rename`. -/
inductive FsEvent where
  | mkdirs : KPath → FsEvent
  | copy : KPath → KPath → FsEvent
  | metaSet : KPath → KDateTime → FsEvent
  | metaSave : KPath → FsEvent
  | rename : KPath → KPath → FsEvent
deriving DecidableEq

/-- The event is a metadata date write. -/
def isMetaSetEv : FsEvent → Bool
  | FsEvent.metaSet _ _ => true
  | _ => false

/-- The event is a rename. -/
def isRenameEv : FsEvent → Bool
  | FsEvent.rename _ _ => true
  | _ => false

/-- The event is a copy. -/
def isCopyEv : FsEvent → Bool
  | FsEvent.copy _ _ => true
  | _ => false

/-- The event is a copy into the given folder. -/
def isCopyIntoEv (folder : KPath) : FsEvent → Bool
  | FsEvent.copy _ dst => decide (pathParent dst = folder)
  | _ => false

/-- Body of the loop of Analyxer.rename_files_with_proprietary_convention
(analyxer.py lines 111-120): the (possibly replaced) record, the entry for
the renamed list, and the entry for the already-existing (duplicate) list. -/
def propStep (env : Env) (fileinfo : FileInfo) :
    FileInfo × Option KPath × Option KPath :=
  if fileinfo.prpdin then
    let original_path := fileinfo.abs_path
    let updated_info := update_proprietary_din env fileinfo
    if updated_info.abs_path = original_path then
      (fileinfo, none, some original_path)
    else
      (updated_info, some updated_info.abs_path, none)
  else (fileinfo, none, none)

/-- Analyxer.rename_files_with_proprietary_convention (analyxer.py lines
100-138): updated records, `files_renamed`, `files_existing`. The loop
iterations are independent per index, so the pass is the per-record step
mapped over the store. -/
def rename_files_with_proprietary_convention (env : Env) (files : List FileInfo) :
    List FileInfo × List KPath × List KPath :=
  (files.map (fun f => (propStep env f).1),
   files.filterMap (fun f => (propStep env f).2.1),
   files.filterMap (fun f => (propStep env f).2.2))

/-- Body of the loop of Analyxer.analyse_files_date_integrity (analyxer.py
lines 150-173): the (possibly replaced) record, the `files_damaged` entry,
the `files_date2review` entry, and the filesystem mutations performed. -/
def integrityStep (env : Env) (f : FileInfo) :
    FileInfo × Option KPath × Option KPath × List FsEvent :=
  if f.kdin || f.ekdin then (f, none, none, [])
  else if f.metadte || f.prpdin then (f, none, none, [])
  else if f.readable && file_has_damaged_date env f.abs_path then
    (f, some (pathJoin f.abs_path (get_file_damaged_date env f.abs_path)), none, [])
  else
    let mdf_date := env.get_file_modify_date f.abs_path
    let new_name := env.file_clean2trkdin f.abs_path mdf_date
    ({ f with abs_path := new_name, kdin := true },
     none, some new_name, [FsEvent.rename f.abs_path new_name])

/-- Analyxer.analyse_files_date_integrity (analyxer.py lines 140-190):
updated records, the returned report `clean_files_damaged + files_date2review`
(damaged entries are reported through their parent, recovering the file path),
and the filesystem mutations. -/
def analyse_files_date_integrity (env : Env) (files : List FileInfo) :
    List FileInfo × List KPath × List FsEvent :=
  (files.map (fun f => (integrityStep env f).1),
   (files.filterMap (fun f => (integrityStep env f).2.1)).map pathParent
     ++ files.filterMap (fun f => (integrityStep env f).2.2.1),
   (files.map (fun f => (integrityStep env f).2.2.2)).flatten)

/-- Body of the loop of Analyxer.write_date_to_files_with_edition_kdin
(analyxer.py lines 211-252): the (possibly replaced) record, the
`files_din_renamed` entry, the `meta_edited` entry, and the filesystem
mutations in the order the statements execute (makedirs for both review
folders, copy of the original, metadata date write and save, copy of the
edited file, final rename). -/
def editStep (env : Env) (yb : Int × Int)
    (fld4f2rev_originals fld4f2rev_edited : KPath) (f : FileInfo) :
    FileInfo × Option KPath × Option KPath × List FsEvent :=
  if f.ekdin then
    if f.editable then
      let date2add := env.get_file_ekdin f.abs_path
      let new_rnme := env.itername (env.file_ekdin2clean f.abs_path)
      let f2 := { f with metadte := true, ekdin := false, abs_path := new_rnme }
      let f3 := (set_metadate_original f2 date2add).getD f2
      (f3, none, some new_rnme,
       [FsEvent.mkdirs fld4f2rev_originals,
        FsEvent.mkdirs fld4f2rev_edited,
        FsEvent.copy f.abs_path (pathJoin fld4f2rev_originals (pathName f.abs_path)),
        FsEvent.metaSet f.abs_path date2add,
        FsEvent.metaSave f.abs_path,
        FsEvent.copy f.abs_path (pathJoin fld4f2rev_edited (pathName f.abs_path)),
        FsEvent.rename f.abs_path new_rnme])
    else
      let new_rnme := env.itername (env.file_ekdin2kdin f.abs_path)
      ({ f with abs_path := new_rnme, ekdin := false, kdin := true },
       some new_rnme, none, [FsEvent.rename f.abs_path new_rnme])
  else (f, none, none, [])

/-- The unique review-originals folder of a run (analyxer.py lines 204-206). -/
def reviewOriginalsFolder (env : Env) (meta_logs_path : KPath) : KPath :=
  pathJoin (env.itername (pathJoin meta_logs_path TO_REVIEW_PATH)) "originals".toList

/-- The unique review-edited folder of a run (analyxer.py lines 204-207). -/
def reviewEditedFolder (env : Env) (meta_logs_path : KPath) : KPath :=
  pathJoin (env.itername (pathJoin meta_logs_path TO_REVIEW_PATH)) "edited".toList

/-- Analyxer.write_date_to_files_with_edition_kdin (analyxer.py lines
192-271): updated records, the returned report
`files_din_renamed + meta_edited`, and the filesystem mutations. -/
def write_date_to_files_with_edition_kdin (env : Env) (yb : Int × Int)
    (meta_logs_path : KPath) (files : List FileInfo) :
    List FileInfo × List KPath × List FsEvent :=
  let fld0 := reviewOriginalsFolder env meta_logs_path
  let fld1 := reviewEditedFolder env meta_logs_path
  (files.map (fun f => (editStep env yb fld0 fld1 f).1),
   files.filterMap (fun f => (editStep env yb fld0 fld1 f).2.1)
     ++ files.filterMap (fun f => (editStep env yb fld0 fld1 f).2.2.1),
   (files.map (fun f => (editStep env yb fld0 fld1 f).2.2.2)).flatten)

/-- Body of the loop of Analyxer.analyse_files_date_consistency (analyxer.py
lines 284-291): the `inconsistent` entry built for the record, if any. -/
def consistencyEntry (env : Env) (yb : Int × Int) (margin_secs : Int)
    (fileinfo : FileInfo) : Option KPath :=
  if fileinfo.kdin && fileinfo.metadte then
    let meta_date := (get_metadate_original fileinfo).getD sentinelDate
    let kdin_date := env.get_file_kdin fileinfo.abs_path
    if margin_secs < |diffSeconds meta_date kdin_date| then
      some (pathJoin fileinfo.abs_path meta_date.str)
    else none
  else none

/-- Analyxer.analyse_files_date_consistency (analyxer.py lines 273-305): the
returned report `[x.parent for x in inconsistent]`. The pass performs no
record replacement and no filesystem mutation. -/
def analyse_files_date_consistency (env : Env) (yb : Int × Int)
    (margin_secs : Int) (files : List FileInfo) : List KPath :=
  (files.filterMap (consistencyEntry env yb margin_secs)).map pathParent

/-- Body of the loop of Analyxer.detect_files_out_of_folder_date_bounds
(analyxer.py lines 323-347): the `discrepances` entry built for the record,
if any. -/
def detectStep (env : Env) (yb : Int × Int) (fileinfo : FileInfo) : Option KPath :=
  let folder_path := pathParent fileinfo.abs_path
  if env.is_folder_kdin folder_path then
    let fld_bounds := env.folder_kdin_bounds folder_path
    if fileinfo.kdin then
      let kdn := env.get_file_kdin fileinfo.abs_path
      if fld_bounds.1.leb kdn && kdn.leb fld_bounds.2 then none
      else some (pathJoin fileinfo.abs_path kdn.str)
    else if fileinfo.ekdin then
      let edn := env.get_file_ekdin fileinfo.abs_path
      if fld_bounds.1.leb edn && edn.leb fld_bounds.2 then none
      else some (pathJoin fileinfo.abs_path edn.str)
    else if fileinfo.readable && fileinfo.metadte then
      let dto := (get_metadate_original fileinfo).getD sentinelDate
      if fld_bounds.1.leb dto && dto.leb fld_bounds.2 then none
      else some (pathJoin fileinfo.abs_path dto.str)
    else none
  else none

/-- Analyxer.detect_files_out_of_folder_date_bounds (analyxer.py lines
307-357): the returned report `[x.parent for x in discrepances]`. The pass
performs no record replacement and no filesystem mutation. -/
def detect_files_out_of_folder_date_bounds (env : Env) (yb : Int × Int)
    (files : List FileInfo) : List KPath :=
  (files.filterMap (detectStep env yb)).map pathParent

/-- All outputs of one Analyxer.run: the record store after each mutating
stage, the two lists of the proprietary pass, the four aggregated warning
lists, and the returned boolean. -/
structure RunOut where
  files0 : List FileInfo
  files1 : List FileInfo
  files2 : List FileInfo
  files3 : List FileInfo
  prop_renamed : List KPath
  prop_existing : List KPath
  warns0 : List KPath
  warns1 : List KPath
  warns2 : List KPath
  warns3 : List KPath
  result : Bool

/-- Analyxer.run (analyxer.py lines 359-387): the six passes in their fixed
order, returning `bool(len(warns0) + len(warns1) + len(warns2) + len(warns3))`. -/
def run (env : Env) (yb : Int × Int) (margin_secs : Int)
    (meta_logs_path : KPath) (files_in_path : List KPath) : RunOut :=
  let files0 := load_files2analyse env yb files_in_path
  let r1 := rename_files_with_proprietary_convention env files0
  let r2 := analyse_files_date_integrity env r1.1
  let r3 := write_date_to_files_with_edition_kdin env yb meta_logs_path r2.1
  let warns2 := analyse_files_date_consistency env yb margin_secs r3.1
  let warns3 := detect_files_out_of_folder_date_bounds env yb r3.1
  { files0 := files0
    files1 := r1.1
    files2 := r2.1
    files3 := r3.1
    prop_renamed := r1.2.1
    prop_existing := r1.2.2
    warns0 := r2.2.1
    warns1 := r3.2.1
    warns2 := warns2
    warns3 := warns3
    result := decide (r2.2.1.length + r3.2.1.length + warns2.length + warns3.length ≠ 0) }

/-- The skip condition the scan pass actually implements (analyxer.py lines
72-75): the last dot-separated component of the uppercased name is in the
skip set, or the uppercased pathlib extension is in the skip set. -/
def skipSpec (name : Str) : Bool :=
  SKIP_EXTENSIONS.contains ((splitDot (upperStr name)).getLastD [])
    || SKIP_EXTENSIONS.contains (upperStr (pyExt name))

/-- A trivial environment: no readable or editable extensions, no metadata
dates, no conventions detected anywhere. Used by concrete witnesses. -/
def baseEnv : Env where
  readable_extensions := []
  editable_extensions := []
  has_date_original := fun _ => false
  date_original := fun _ => sentinelDate
  is_file_kdin := fun _ => false
  is_file_ekdin := fun _ => false
  is_proprietary_din := fun _ => false
  get_file_kdin := fun _ => ⟨2000, 0⟩
  get_file_ekdin := fun _ => ⟨2000, 0⟩
  is_folder_kdin := fun _ => false
  folder_kdin_bounds := fun _ => (⟨2000, 0⟩, ⟨2001, 0⟩)
  get_file_modify_date := fun _ => ⟨2010, 0⟩
  file_clean2trkdin := fun p _ => pathJoin (pathParent p) ("TR".toList ++ pathName p)
  file_ekdin2clean := fun p => pathJoin (pathParent p) ("C".toList ++ pathName p)
  file_ekdin2kdin := fun p => pathJoin (pathParent p) ("K".toList ++ pathName p)
  itername := fun p => p
  kdin_target := fun p => pathJoin (pathParent p) ("K".toList ++ pathName p)
  target_exists := fun _ => false

theorem scanFile_path (env : Env) (yb : Int × Int) (p : KPath) (r : FileInfo)
    (h : scanFile env yb p = some r) : r.abs_path = p := by
  unfold scanFile at h
  split at h
  · simp at h
  · split at h
    · simp at h
    · simp only [Option.some.injEq] at h
      subst h
      cases hc : env.readable_extensions.contains (upperStr (pyExt (pathName p)))
      · simp [hc]
      · cases hv : has_valid_date_original env yb p
        · simp [hc, hv]
        · simp [hc, hv, set_metadate_original]

theorem scanFile_eq_none_iff (env : Env) (yb : Int × Int) (p : KPath) :
    scanFile env yb p = none ↔ skipSpec (pathName p) = true := by
  unfold scanFile skipSpec
  cases h1 : SKIP_EXTENSIONS.contains ((splitDot (upperStr (pathName p))).getLastD []) <;>
    cases h2 : SKIP_EXTENSIONS.contains (upperStr (pyExt (pathName p))) <;>
      simp [h1, h2]

/-- C1 (amended): a visited file is excluded from the Record Store iff the
scan skip condition holds for its name: the last dot-separated component of
the uppercased name is in the fixed skip set, or the uppercased pathlib
extension is in the skip set. For a file with a genuine extension this is the
case-insensitive extension match of the claim, but an extensionless file
whose whole name matches a skip token (or a dot-file such as `.DS_Store`) is
also skipped. -/
theorem scan_skip_amended (env : Env) (yb : Int × Int) (files : List KPath)
    (file : KPath) :
    (∃ r ∈ load_files2analyse env yb files, r.abs_path = file) ↔
      (file ∈ files ∧ skipSpec (pathName file) = false) := by
  unfold load_files2analyse
  constructor
  · rintro ⟨r, hr, hpath⟩
    rw [List.mem_filterMap] at hr
    obtain ⟨a, ha, hscan⟩ := hr
    have hap := scanFile_path env yb a r hscan
    have haf : a = file := by rw [← hpath, hap]
    subst haf
    refine ⟨ha, ?_⟩
    cases hsk : skipSpec (pathName a) with
    | false => rfl
    | true =>
      rw [← scanFile_eq_none_iff env yb a] at hsk
      rw [hsk] at hscan
      exact absurd hscan (by simp)
  · rintro ⟨hmem, hns⟩
    have hne : scanFile env yb file ≠ none := by
      rw [Ne, scanFile_eq_none_iff]
      simp [hns]
    obtain ⟨r, hr⟩ := Option.ne_none_iff_exists'.1 hne
    exact ⟨r, List.mem_filterMap.2 ⟨file, hmem, hr⟩, scanFile_path env yb file r hr⟩

/-- The concrete file named `txt`, with no dot in its name. -/
def fileTxt : KPath := ["txt".toList]

/-- C1 counterexample: the claim states that a file with no extension at all
is never skipped and always produces a FileRecord; the file named `txt` has
no extension (its pathlib suffix is empty), yet the scan pass skips it (its
whole name, uppercased, matches the skip token `TXT`), so the Record Store
stays empty. -/
theorem scan_skip_counterexample :
    pyExt (pathName fileTxt) = [] ∧
      load_files2analyse baseEnv (1800, 2300) [fileTxt] = [] := by decide

/-- C8: reading or writing the metadata original date of a record with
`metadte = false` fails fast (the model returns `none`, the AssertionError of
the source, and produces no updated record), and when `metadte = true` the
read returns the stored date without error. -/
theorem metadate_access_contract (f : FileInfo) (d : KDateTime) :
    (f.metadte = false →
       set_metadate_original f d = none ∧ get_metadate_original f = none) ∧
    (f.metadte = true →
       get_metadate_original f = some f.metadata_original_date) := by
  constructor
  · intro h
    simp [set_metadate_original, get_metadate_original, h]
  · intro h
    simp [get_metadate_original, h]

/-- A concrete record with `metadte = false`. -/
def recNoMeta : FileInfo where
  kdin := false
  ekdin := false
  prpdin := false
  metadte := false
  readable := false
  editable := false
  abs_path := fileTxt

theorem metadate_access_contract_witness :
    set_metadate_original recNoMeta sentinelDate = none ∧
      get_metadate_original recNoMeta = none :=
  (metadate_access_contract recNoMeta sentinelDate).1 rfl

/-- C2: for a record lacking all four date-evidence flags, the date-integrity
pass is a two-way case split: with readable metadata reporting a damaged date
the record is reported damaged, kept unrenamed with path and flags unchanged
and no filesystem mutation; otherwise the file is renamed to the to-review
KDIN name built from the filesystem modify date, the path is updated and
`kdin` is set. A record with any evidence flag set is left untouched. -/
theorem integrity_pass_two_way_split (env : Env) (f : FileInfo) :
    ((f.kdin || f.ekdin || f.metadte || f.prpdin) = true →
       integrityStep env f = (f, none, none, [])) ∧
    ((f.kdin || f.ekdin || f.metadte || f.prpdin) = false →
       (f.readable && file_has_damaged_date env f.abs_path) = true →
       integrityStep env f =
         (f, some (pathJoin f.abs_path (get_file_damaged_date env f.abs_path)),
          none, [])) ∧
    ((f.kdin || f.ekdin || f.metadte || f.prpdin) = false →
       (f.readable && file_has_damaged_date env f.abs_path) = false →
       integrityStep env f =
         ({ f with
              abs_path := env.file_clean2trkdin f.abs_path
                (env.get_file_modify_date f.abs_path),
              kdin := true },
          none,
          some (env.file_clean2trkdin f.abs_path (env.get_file_modify_date f.abs_path)),
          [FsEvent.rename f.abs_path
            (env.file_clean2trkdin f.abs_path (env.get_file_modify_date f.abs_path))])) := by
  cases hk : f.kdin <;> cases he : f.ekdin <;> cases hm : f.metadte <;>
    cases hp : f.prpdin <;>
      simp [integrityStep, hk, he, hm, hp]

/-- A concrete file `d/a.jpg`. -/
def fileJpg : KPath := ["a.jpg".toList, "d".toList]

/-- An environment whose metadata backend reports a date field with the
damaged sentinel year 1 for every file. -/
def envDamaged : Env :=
  { baseEnv with
      has_date_original := fun _ => true,
      date_original := fun _ => ⟨1, 500⟩ }

/-- A record with no date evidence at all and readable metadata. -/
def recBare : FileInfo where
  kdin := false
  ekdin := false
  prpdin := false
  metadte := false
  readable := true
  editable := false
  abs_path := fileJpg

theorem integrity_pass_two_way_split_witness :
    integrityStep envDamaged recBare =
      (recBare,
       some (pathJoin recBare.abs_path (get_file_damaged_date envDamaged recBare.abs_path)),
       none, []) :=
  (integrity_pass_two_way_split envDamaged recBare).2.1 (by decide) (by decide)

/-- C6: for a record with `prpdin = true` whose canonical KDIN target name
differs from its current name (a proprietary name is never already canonical),
the proprietary-rename pass never overwrites: when the target exists on disk
the rename is skipped, the record is unchanged and the path is reported in
the duplicate list; otherwise the record's path becomes the target, `kdin`
is set, `prpdin` is cleared and the new path is reported as renamed. -/
theorem proprietary_rename_no_overwrite (env : Env) (f : FileInfo)
    (hp : f.prpdin = true)
    (hn : pathName (env.kdin_target f.abs_path) ≠ pathName f.abs_path) :
    (env.target_exists (env.kdin_target f.abs_path) = true →
       propStep env f = (f, none, some f.abs_path)) ∧
    (env.target_exists (env.kdin_target f.abs_path) = false →
       propStep env f =
         ({ f with
              abs_path := env.kdin_target f.abs_path,
              prpdin := false,
              kdin := true },
          some (env.kdin_target f.abs_path), none)) := by
  constructor
  · intro ht
    have h1 : rename_proprietary_din_file env f.abs_path = f.abs_path := by
      simp [rename_proprietary_din_file, ht]
    have h2 : update_proprietary_din env f = f := by
      unfold update_proprietary_din
      rw [h1]
      simp
    simp [propStep, hp, h2]
  · intro ht
    have h1 : rename_proprietary_din_file env f.abs_path = env.kdin_target f.abs_path := by
      simp [rename_proprietary_din_file, ht]
    have h2 : update_proprietary_din env f =
        { f with
            abs_path := env.kdin_target f.abs_path,
            prpdin := false,
            kdin := true } := by
      unfold update_proprietary_din
      rw [h1]
      simp [hn]
    have hne : env.kdin_target f.abs_path ≠ f.abs_path := fun hh => hn (by rw [hh])
    simp [propStep, hp, h2, hne]

/-- An environment where every canonical rename target already exists. -/
def envPropDup : Env := { baseEnv with target_exists := fun _ => true }

/-- A record carrying a proprietary date-in-name. -/
def recProp : FileInfo where
  kdin := false
  ekdin := false
  prpdin := true
  metadte := false
  readable := false
  editable := false
  abs_path := fileJpg

theorem proprietary_rename_no_overwrite_witness :
    propStep envPropDup recProp = (recProp, none, some recProp.abs_path) :=
  (proprietary_rename_no_overwrite envPropDup recProp (by decide) (by decide)).1
    (by decide)

/-- C3 (amended): for a record with `ekdin = true` and editable metadata, the
event order of the edit-date migration pass is: the review-originals copy
completes before the metadata original date is written, the review-edited
copy happens after the metadata write (it copies the post-edit file) and
before the final rename, and the rename of the live file is the last
filesystem mutation of the sequence. -/
theorem edit_migration_order_amended (env : Env) (yb : Int × Int)
    (fld0 fld1 : KPath) (f : FileInfo)
    (he : f.ekdin = true) (hd : f.editable = true) :
    ((editStep env yb fld0 fld1 f).2.2.2)[2]? =
        some (FsEvent.copy f.abs_path (pathJoin fld0 (pathName f.abs_path))) ∧
    ((editStep env yb fld0 fld1 f).2.2.2)[3]? =
        some (FsEvent.metaSet f.abs_path (env.get_file_ekdin f.abs_path)) ∧
    ((editStep env yb fld0 fld1 f).2.2.2)[5]? =
        some (FsEvent.copy f.abs_path (pathJoin fld1 (pathName f.abs_path))) ∧
    ((editStep env yb fld0 fld1 f).2.2.2).getLast? =
        some (FsEvent.rename f.abs_path
          (env.itername (env.file_ekdin2clean f.abs_path))) ∧
    ((editStep env yb fld0 fld1 f).2.2.2).dropLast.all
        (fun e => !isRenameEv e) = true := by
  simp [editStep, he, hd, isRenameEv]

/-- A record with an edit-date-in-name and editable metadata. -/
def recEkdin : FileInfo where
  kdin := false
  ekdin := true
  prpdin := false
  metadte := false
  readable := true
  editable := true
  abs_path := fileJpg

theorem edit_migration_order_amended_witness :
    ((editStep baseEnv (1800, 2300) ["o".toList] ["e".toList] recEkdin).2.2.2)[3]? =
      some (FsEvent.metaSet recEkdin.abs_path
        (baseEnv.get_file_ekdin recEkdin.abs_path)) :=
  (edit_migration_order_amended baseEnv (1800, 2300) ["o".toList] ["e".toList]
    recEkdin rfl rfl).2.1

/-- The meta-loggers folder of the concrete counterexample run. -/
def mlpRev : KPath := ["logs".toList]

/-- C3 counterexample: the claim states that both review copies complete
before the metadata original date is written; in the pass's event trace for
an editable EKDIN record the (unique) copy into the review-edited folder
exists but occurs strictly after the metadata write, so the claim as stated
is false. -/
theorem edit_migration_order_counterexample :
    (write_date_to_files_with_edition_kdin baseEnv (1800, 2300) mlpRev
        [recEkdin]).2.2.findIdx
        (isCopyIntoEv (reviewEditedFolder baseEnv mlpRev)) <
      (write_date_to_files_with_edition_kdin baseEnv (1800, 2300) mlpRev
        [recEkdin]).2.2.length ∧
    (write_date_to_files_with_edition_kdin baseEnv (1800, 2300) mlpRev
        [recEkdin]).2.2.findIdx isMetaSetEv <
      (write_date_to_files_with_edition_kdin baseEnv (1800, 2300) mlpRev
        [recEkdin]).2.2.findIdx
        (isCopyIntoEv (reviewEditedFolder baseEnv mlpRev)) := by decide

/-- The consistency report entry as the spec words it, except that the item
reported is the record's own path: present exactly when the record has both
`kdin` and `metadte` and the dates differ by strictly more than the margin. -/
def consistencyReportSpec (env : Env) (yb : Int × Int) (margin_secs : Int)
    (f : FileInfo) : Option KPath :=
  if f.kdin = true ∧ f.metadte = true ∧
      margin_secs < |diffSeconds ((get_metadate_original f).getD sentinelDate)
        (env.get_file_kdin f.abs_path)| then
    some f.abs_path
  else none

/-- C4 (amended): for every record with both `kdin = true` and
`metadte = true` the consistency-check pass reports the record's own path
(not its containing folder) iff the absolute difference between the metadata
original date and the KDIN-encoded date strictly exceeds the margin; other
records are never reported, and the pass mutates no record and no file (it
only returns this report). -/
theorem consistency_margin_amended (env : Env) (yb : Int × Int)
    (margin_secs : Int) (files : List FileInfo) :
    analyse_files_date_consistency env yb margin_secs files =
      files.filterMap (consistencyReportSpec env yb margin_secs) := by
  unfold analyse_files_date_consistency
  rw [List.map_filterMap]
  have h : ∀ f, (consistencyEntry env yb margin_secs f).map pathParent =
      consistencyReportSpec env yb margin_secs f := by
    intro f
    unfold consistencyEntry consistencyReportSpec
    cases hk : f.kdin <;> cases hm : f.metadte <;> simp [hk, hm] <;>
      split <;> simp [pathParent, pathJoin]
  rw [funext h]

/-- An environment whose KDIN codec decodes every name to 2020 10:00:00. -/
def envKdin : Env := { baseEnv with get_file_kdin := fun _ => ⟨2020, 36000⟩ }

/-- A record with `kdin` and `metadte` whose stored metadata date is 120
seconds after the KDIN date. -/
def recIncons : FileInfo where
  kdin := true
  ekdin := false
  prpdin := false
  metadte := true
  readable := true
  editable := false
  abs_path := fileJpg
  metadata_original_date := ⟨2020, 36120⟩

/-- C4 counterexample: the claim states the pass reports the record's
containing folder; on a record 120 seconds out of margin the report contains
the record's file path and does not contain the containing folder. -/
theorem consistency_reports_file_not_folder :
    analyse_files_date_consistency envKdin (1800, 2300) 60 [recIncons] =
        [recIncons.abs_path] ∧
      pathParent recIncons.abs_path ∉
        analyse_files_date_consistency envKdin (1800, 2300) 60 [recIncons] := by
  decide

/-- The best date of a record in the spec's priority order: the KDIN date if
`kdin`, else the EKDIN date if `ekdin`, else the stored metadata original
date if the metadata is readable and `metadte`, else nothing. -/
def boundsBestDateSpec (env : Env) (yb : Int × Int) (f : FileInfo) :
    Option KDateTime :=
  if f.kdin then some (env.get_file_kdin f.abs_path)
  else if f.ekdin then some (env.get_file_ekdin f.abs_path)
  else if f.readable && f.metadte then
    some ((get_metadate_original f).getD sentinelDate)
  else none

/-- The folder-bounds report entry as the spec words it: when the containing
folder encodes a valid bound interval and the record has a best date, report
the file exactly when that date falls outside the closed interval; a record
with no date source yields nothing. -/
def boundsReportSpec (env : Env) (yb : Int × Int) (f : FileInfo) : Option KPath :=
  if env.is_folder_kdin (pathParent f.abs_path) then
    match boundsBestDateSpec env yb f with
    | some d =>
      if (env.folder_kdin_bounds (pathParent f.abs_path)).1.leb d &&
          d.leb (env.folder_kdin_bounds (pathParent f.abs_path)).2 then none
      else some f.abs_path
    | none => none
  else none

/-- C5: the folder-bounds pass reports exactly the files whose best date —
chosen strictly in the priority order KDIN, else EKDIN, else readable valid
metadata — falls outside the containing folder's closed bound interval;
records with no date source are silently skipped, and the pass mutates
nothing (it only returns this report). -/
theorem folder_bounds_priority_correct (env : Env) (yb : Int × Int)
    (files : List FileInfo) :
    detect_files_out_of_folder_date_bounds env yb files =
      files.filterMap (boundsReportSpec env yb) := by
  unfold detect_files_out_of_folder_date_bounds
  rw [List.map_filterMap]
  have h : ∀ f, (detectStep env yb f).map pathParent = boundsReportSpec env yb f := by
    intro f
    unfold detectStep boundsReportSpec boundsBestDateSpec
    cases hf : env.is_folder_kdin (pathParent f.abs_path)
    · simp [hf]
    · cases hk : f.kdin
      · cases he : f.ekdin
        · cases hr : f.readable <;> cases hm : f.metadte <;>
            simp [hf, hk, he, hr, hm] <;>
              (try (split <;> simp [pathParent, pathJoin]))
        · simp [hf, hk, he]
          split <;> simp [pathParent, pathJoin]
      · simp [hf, hk]
        split <;> simp [pathParent, pathJoin]
  rw [funext h]

/-- C7: the Driver's run is the six passes strictly in the fixed order scan,
proprietary-rename, date-integrity, edit-date migration, consistency-check,
folder-bounds (each pass consuming the record store left by the previous
one), and its boolean result is true iff the combined length of the four
report lists of the integrity, edit-migration, consistency and bounds passes
is nonzero; duplicate-conflicts of the proprietary pass do not contribute. -/
theorem driver_run_order_and_result (env : Env) (yb : Int × Int)
    (margin_secs : Int) (meta_logs_path : KPath) (files_in_path : List KPath) :
    ((run env yb margin_secs meta_logs_path files_in_path).result = true ↔
       (run env yb margin_secs meta_logs_path files_in_path).warns0.length +
         (run env yb margin_secs meta_logs_path files_in_path).warns1.length +
         (run env yb margin_secs meta_logs_path files_in_path).warns2.length +
         (run env yb margin_secs meta_logs_path files_in_path).warns3.length ≠ 0) ∧
    ((run env yb margin_secs meta_logs_path files_in_path).warns0 = [] →
     (run env yb margin_secs meta_logs_path files_in_path).warns1 = [] →
     (run env yb margin_secs meta_logs_path files_in_path).warns2 = [] →
     (run env yb margin_secs meta_logs_path files_in_path).warns3 = [] →
       (run env yb margin_secs meta_logs_path files_in_path).result = false) ∧
    (run env yb margin_secs meta_logs_path files_in_path).files0 =
      load_files2analyse env yb files_in_path ∧
    (run env yb margin_secs meta_logs_path files_in_path).files1 =
      (rename_files_with_proprietary_convention env
        (run env yb margin_secs meta_logs_path files_in_path).files0).1 ∧
    (run env yb margin_secs meta_logs_path files_in_path).prop_existing =
      (rename_files_with_proprietary_convention env
        (run env yb margin_secs meta_logs_path files_in_path).files0).2.2 ∧
    (run env yb margin_secs meta_logs_path files_in_path).files2 =
      (analyse_files_date_integrity env
        (run env yb margin_secs meta_logs_path files_in_path).files1).1 ∧
    (run env yb margin_secs meta_logs_path files_in_path).warns0 =
      (analyse_files_date_integrity env
        (run env yb margin_secs meta_logs_path files_in_path).files1).2.1 ∧
    (run env yb margin_secs meta_logs_path files_in_path).files3 =
      (write_date_to_files_with_edition_kdin env yb meta_logs_path
        (run env yb margin_secs meta_logs_path files_in_path).files2).1 ∧
    (run env yb margin_secs meta_logs_path files_in_path).warns1 =
      (write_date_to_files_with_edition_kdin env yb meta_logs_path
        (run env yb margin_secs meta_logs_path files_in_path).files2).2.1 ∧
    (run env yb margin_secs meta_logs_path files_in_path).warns2 =
      analyse_files_date_consistency env yb margin_secs
        (run env yb margin_secs meta_logs_path files_in_path).files3 ∧
    (run env yb margin_secs meta_logs_path files_in_path).warns3 =
      detect_files_out_of_folder_date_bounds env yb
        (run env yb margin_secs meta_logs_path files_in_path).files3 := by
  refine ⟨?_, ?_, rfl, rfl, rfl, rfl, rfl, rfl, rfl, rfl, rfl⟩
  · simp [run]
    tauto
  · intro h0 h1 h2 h3
    have hh : (run env yb margin_secs meta_logs_path files_in_path).result =
        decide ((run env yb margin_secs meta_logs_path files_in_path).warns0.length +
          (run env yb margin_secs meta_logs_path files_in_path).warns1.length +
          (run env yb margin_secs meta_logs_path files_in_path).warns2.length +
          (run env yb margin_secs meta_logs_path files_in_path).warns3.length ≠ 0) := rfl
    rw [hh, h0, h1, h2, h3]
    simp

theorem driver_run_order_and_result_witness :
    (run baseEnv (1800, 2300) 60 mlpRev []).result = false :=
  (driver_run_order_and_result baseEnv (1800, 2300) 60 mlpRev []).2.1
    (by decide) (by decide) (by decide) (by decide)

theorem editStep_record_ekdin (env : Env) (yb : Int × Int) (a b : KPath)
    (g : FileInfo) : ((editStep env yb a b g).1).ekdin = false := by
  unfold editStep
  cases he : g.ekdin
  · simp [he]
  · cases hd : g.editable <;> simp [he, hd, set_metadate_original]

/-- The folder-bounds per-record check with the EKDIN branch removed: the
fall-through goes from the KDIN branch directly to the readable-metadata
branch. Used to state that the EKDIN branch never selects a date. -/
def detectStepNoEkdin (env : Env) (yb : Int × Int) (fileinfo : FileInfo) :
    Option KPath :=
  let folder_path := pathParent fileinfo.abs_path
  if env.is_folder_kdin folder_path then
    let fld_bounds := env.folder_kdin_bounds folder_path
    if fileinfo.kdin then
      let kdn := env.get_file_kdin fileinfo.abs_path
      if fld_bounds.1.leb kdn && kdn.leb fld_bounds.2 then none
      else some (pathJoin fileinfo.abs_path kdn.str)
    else if fileinfo.readable && fileinfo.metadte then
      let dto := (get_metadate_original fileinfo).getD sentinelDate
      if fld_bounds.1.leb dto && dto.leb fld_bounds.2 then none
      else some (pathJoin fileinfo.abs_path dto.str)
    else none
  else none

/-- C9: every record left in the store by the edit-date migration pass of a
full Driver run has `ekdin = false` (both branches clear the flag and other
records already carry `ekdin = false`), so on those records the folder-bounds
per-record check coincides with its EKDIN-branch-free variant: the EKDIN
branch never selects a date within a full run. -/
theorem edit_migration_clears_ekdin (env : Env) (yb : Int × Int)
    (margin_secs : Int) (meta_logs_path : KPath) (files_in_path : List KPath)
    (f : FileInfo)
    (hf : f ∈ (run env yb margin_secs meta_logs_path files_in_path).files3) :
    f.ekdin = false ∧ detectStep env yb f = detectStepNoEkdin env yb f := by
  have hf2 : f ∈ ((run env yb margin_secs meta_logs_path files_in_path).files2).map
      (fun g => (editStep env yb (reviewOriginalsFolder env meta_logs_path)
        (reviewEditedFolder env meta_logs_path) g).1) := hf
  obtain ⟨g, hg, hfg⟩ := List.mem_map.1 hf2
  have he : f.ekdin = false := by
    rw [← hfg]
    exact editStep_record_ekdin env yb _ _ g
  refine ⟨he, ?_⟩
  unfold detectStep detectStepNoEkdin
  cases hfold : env.is_folder_kdin (pathParent f.abs_path)
  · simp [hfold]
  · cases hk : f.kdin <;> simp [hfold, hk, he]

/-- An environment that recognises JPG metadata and reports a valid 2020
original date for every file. -/
def envMeta : Env :=
  { baseEnv with
      readable_extensions := ["JPG".toList],
      has_date_original := fun _ => true,
      date_original := fun _ => ⟨2020, 5⟩ }

/-- The record the scan pass builds for `d/a.jpg` under `envMeta`: readable
metadata with a stored valid 2020 original date and no name convention. -/
def recMeta : FileInfo where
  kdin := false
  ekdin := false
  prpdin := false
  metadte := true
  readable := true
  editable := false
  abs_path := fileJpg
  metadata_original_date := ⟨2020, 5⟩

theorem edit_migration_clears_ekdin_witness :
    recMeta.ekdin = false ∧
      detectStep envMeta (1800, 2300) recMeta =
        detectStepNoEkdin envMeta (1800, 2300) recMeta :=
  edit_migration_clears_ekdin envMeta (1800, 2300) 60 mlpRev [fileJpg] recMeta
    (by decide)

/-- The date-storage invariant: a record with `metadte = true` carries an
explicitly stored metadata original date whose year lies within the year
bounds (and hence, for bounds above year 1, differs from the sentinel). -/
def metadteInv (yb : Int × Int) (f : FileInfo) : Prop :=
  f.metadte = true →
    yb.1 ≤ f.metadata_original_date.year ∧ f.metadata_original_date.year ≤ yb.2

theorem metadteInv_of_fields (yb : Int × Int) (g f : FileInfo)
    (h1 : f.metadte = g.metadte)
    (h2 : f.metadata_original_date = g.metadata_original_date)
    (hg : metadteInv yb g) : metadteInv yb f := by
  intro hm
  rw [h2]
  exact hg (h1 ▸ hm)

theorem scan_metadteInv (env : Env) (yb : Int × Int) (files : List KPath)
    (f : FileInfo) (hf : f ∈ load_files2analyse env yb files) :
    metadteInv yb f := by
  obtain ⟨p, hp, hs⟩ := List.mem_filterMap.1 hf
  unfold scanFile at hs
  split at hs
  · simp at hs
  · split at hs
    · simp at hs
    · simp only [Option.some.injEq] at hs
      subst hs
      cases hc : env.readable_extensions.contains (upperStr (pyExt (pathName p)))
      · simp [hc]
        intro hm
        simp at hm
      · cases hv : has_valid_date_original env yb p
        · simp [hc, hv]
          intro hm
          simp at hm
        · simp [hc, hv, set_metadate_original]
          intro _
          unfold has_valid_date_original at hv
          cases hd : env.has_date_original p
          · rw [hd] at hv
            simp at hv
          · rw [hd] at hv
            simp at hv
            exact hv

theorem update_proprietary_din_fields (env : Env) (g : FileInfo) :
    (update_proprietary_din env g).metadte = g.metadte ∧
      (update_proprietary_din env g).metadata_original_date =
        g.metadata_original_date := by
  simp only [update_proprietary_din]
  split <;> exact ⟨rfl, rfl⟩

theorem propStep_fields (env : Env) (g : FileInfo) :
    ((propStep env g).1).metadte = g.metadte ∧
      ((propStep env g).1).metadata_original_date = g.metadata_original_date := by
  simp only [propStep]
  by_cases hp : g.prpdin = true
  · rw [if_pos hp]
    by_cases hc : (update_proprietary_din env g).abs_path = g.abs_path
    · rw [if_pos hc]
      exact ⟨rfl, rfl⟩
    · rw [if_neg hc]
      exact update_proprietary_din_fields env g
  · rw [if_neg hp]
    exact ⟨rfl, rfl⟩

theorem integrityStep_fields (env : Env) (g : FileInfo) :
    ((integrityStep env g).1).metadte = g.metadte ∧
      ((integrityStep env g).1).metadata_original_date =
        g.metadata_original_date := by
  unfold integrityStep
  split
  · exact ⟨rfl, rfl⟩
  · split
    · exact ⟨rfl, rfl⟩
    · split
      · exact ⟨rfl, rfl⟩
      · exact ⟨rfl, rfl⟩

theorem editStep_inv (env : Env) (yb : Int × Int) (a b : KPath) (g : FileInfo)
    (hek : ∀ p, yb.1 ≤ (env.get_file_ekdin p).year ∧
      (env.get_file_ekdin p).year ≤ yb.2)
    (hg : metadteInv yb g) : metadteInv yb ((editStep env yb a b g).1) := by
  unfold editStep
  cases he : g.ekdin
  · simpa [he] using hg
  · cases hd : g.editable
    · simp [he, hd]
      exact hg
    · simp [he, hd, set_metadate_original]
      intro _
      exact hek g.abs_path

/-- C10: in a full Driver run, every record of the store at every stage with
`metadte = true` has an explicitly stored metadata original date (stored by
the scan pass from the gateway, or by the edit-migration pass from the
decoded EKDIN date, both within the year bounds), so reading
`get_metadate_original` on such a record succeeds and never yields the
year-1 sentinel default of the FileInfo class, provided the year bounds lie
above year 1 and the EKDIN codec decodes within them. -/
theorem pipeline_metadate_invariant (env : Env) (yb : Int × Int)
    (margin_secs : Int) (meta_logs_path : KPath) (files_in_path : List KPath)
    (hek : ∀ p, yb.1 ≤ (env.get_file_ekdin p).year ∧
      (env.get_file_ekdin p).year ≤ yb.2)
    (hyb : 1 < yb.1) (f : FileInfo)
    (hf : f ∈ (run env yb margin_secs meta_logs_path files_in_path).files0 ∨
          f ∈ (run env yb margin_secs meta_logs_path files_in_path).files1 ∨
          f ∈ (run env yb margin_secs meta_logs_path files_in_path).files2 ∨
          f ∈ (run env yb margin_secs meta_logs_path files_in_path).files3)
    (hm : f.metadte = true) :
    get_metadate_original f = some f.metadata_original_date ∧
      f.metadata_original_date.year ≠ 1 := by
  have i0 : ∀ g ∈ (run env yb margin_secs meta_logs_path files_in_path).files0,
      metadteInv yb g := fun g hg => scan_metadteInv env yb files_in_path g hg
  have i1 : ∀ g ∈ (run env yb margin_secs meta_logs_path files_in_path).files1,
      metadteInv yb g := by
    intro g hg
    have hg2 : g ∈ ((run env yb margin_secs meta_logs_path files_in_path).files0).map
        (fun x => (propStep env x).1) := hg
    obtain ⟨x, hx, hxg⟩ := List.mem_map.1 hg2
    subst hxg
    exact metadteInv_of_fields yb x _ (propStep_fields env x).1
      (propStep_fields env x).2 (i0 x hx)
  have i2 : ∀ g ∈ (run env yb margin_secs meta_logs_path files_in_path).files2,
      metadteInv yb g := by
    intro g hg
    have hg2 : g ∈ ((run env yb margin_secs meta_logs_path files_in_path).files1).map
        (fun x => (integrityStep env x).1) := hg
    obtain ⟨x, hx, hxg⟩ := List.mem_map.1 hg2
    subst hxg
    exact metadteInv_of_fields yb x _ (integrityStep_fields env x).1
      (integrityStep_fields env x).2 (i1 x hx)
  have i3 : ∀ g ∈ (run env yb margin_secs meta_logs_path files_in_path).files3,
      metadteInv yb g := by
    intro g hg
    have hg2 : g ∈ ((run env yb margin_secs meta_logs_path files_in_path).files2).map
        (fun x => (editStep env yb (reviewOriginalsFolder env meta_logs_path)
          (reviewEditedFolder env meta_logs_path) x).1) := hg
    obtain ⟨x, hx, hxg⟩ := List.mem_map.1 hg2
    subst hxg
    exact editStep_inv env yb _ _ x hek (i2 x hx)
  have hinv : metadteInv yb f := by
    rcases hf with h | h | h | h
    exacts [i0 f h, i1 f h, i2 f h, i3 f h]
  have hb := hinv hm
  refine ⟨by simp [get_metadate_original, hm], ?_⟩
  intro h1
  rw [h1] at hb
  exact absurd hb.1 (by omega)

theorem pipeline_metadate_invariant_witness :
    get_metadate_original recMeta = some recMeta.metadata_original_date ∧
      recMeta.metadata_original_date.year ≠ 1 :=
  pipeline_metadate_invariant envMeta (1800, 2300) 60 mlpRev [fileJpg]
    (fun _ => (by decide : (1800 : Int) ≤ 2000 ∧ (2000 : Int) ≤ 2300))
    (by decide) recMeta (Or.inl (by decide)) (by decide)

end Kanalyxer
